import Mathlib

/-!
Verification of the video-transcription pipeline.

This file shallowly embeds the parts of the repository that the checked
properties talk about: the chunk planner and chunked transcription loop of
`transcription_service.py` (`_transcribe_openai_chunked`, `_transcribe_openai`,
`_enhance_transcript_with_gpt`), the Celery task and its progress/state
handling in `tasks.py` (`TranscriptionTask.update_progress`,
`process_transcription`), the in-app background path of `app.py`, the record
creation of `models.py`/`app.py`, and the encryption wrapper of
`encryption_service.py`.  External effects (ffmpeg, the vendor APIs, the
database session, the filesystem) are modelled by explicit oracles and state
passing; everything else follows the Python source line by line.
-/

/-! ## Chunk planner (`transcription_service.py`, `_transcribe_openai_chunked`) -/

/-- Number of chunks computed by `_transcribe_openai_chunked`:
`num_chunks = int(duration / chunk_duration) + 1`.  Python `int()` truncates
toward zero, which for the nonnegative durations this code handles is the
floor.  `D` is the probed audio duration, `M` the per-chunk duration
(600 seconds in the source). -/
def numChunks (D M : ℚ) : ℕ := (⌊D / M⌋).toNat + 1

/-- Start offset of chunk `i`: `start_time = i * chunk_duration`. -/
def chunkStart (M : ℚ) (i : ℕ) : ℚ := (i : ℚ) * M

/-- Effective end of chunk `i`.  ffmpeg is invoked with `-ss (i*M) -t M`, i.e.
it is asked for `M` seconds starting at `i * M`, but it cannot read past the
end of the audio, so the produced chunk ends at `min (i*M + M) D`. -/
def chunkEnd (D M : ℚ) (i : ℕ) : ℚ := min (chunkStart M i + M) D

/-- Which branch `_transcribe_openai` takes for a given audio file size in
bytes: `if file_size > 25 * 1024 * 1024` it calls the chunked path, otherwise
it makes exactly one `transcriptions.create` call with the whole file. -/
inductive OpenAIPath where
  | single
  | chunked
deriving DecidableEq

/-- Size dispatch of `_transcribe_openai` (`transcription_service.py`). -/
def openaiSizePath (fileSize : ℕ) : OpenAIPath :=
  if fileSize > 25 * 1024 * 1024 then OpenAIPath.chunked else OpenAIPath.single

/-- C1.  Counterexample to the claim that the chunked path produces exactly
`ceil (D / M)` chunks whenever `D > M`: at duration `D = 1200` seconds and
chunk duration `M = 600` seconds, the code computes `int(1200/600) + 1 = 3`
chunks while `ceil (1200/600) = 2`. -/
theorem numChunks_claim_counterexample :
    (600 : ℚ) < 1200 ∧ numChunks 1200 600 = 3 ∧ ⌈(1200 : ℚ) / 600⌉ = 2 := by
  refine ⟨by norm_num, ?_, by norm_num⟩
  unfold numChunks
  norm_num
  decide

/-- C1 (amended).  The chunked path always produces `int(D/M) + 1` chunks;
this equals `ceil (D/M)` exactly when `D` is not an integer multiple of `M`
(in particular for every `D > M` not divisible by `M`), and equals
`ceil (D/M) + 1` when it is.  Separately, when the audio file size is within
the 25 MB single-call limit, `_transcribe_openai` takes the single-call
branch, making exactly one provider call with the whole artifact. -/
theorem numChunks_amended (D M : ℚ) (hD : 0 ≤ D) (hM : 0 < M)
    (h : ¬ ∃ k : ℤ, D = (k : ℚ) * M) :
    (numChunks D M : ℤ) = ⌈D / M⌉ ∧
      ∀ sz : ℕ, ¬ sz > 25 * 1024 * 1024 → openaiSizePath sz = OpenAIPath.single := by
  constructor
  · have hf : (0 : ℤ) ≤ ⌊D / M⌋ := Int.floor_nonneg.mpr (div_nonneg hD hM.le)
    have hne : ((⌊D / M⌋ : ℤ) : ℚ) ≠ D / M := by
      intro hEq
      exact h ⟨⌊D / M⌋, ((div_eq_iff hM.ne').mp hEq.symm)⟩
    have hlt : ((⌊D / M⌋ : ℤ) : ℚ) < D / M := lt_of_le_of_ne (Int.floor_le _) hne
    have hceil : ⌈D / M⌉ = ⌊D / M⌋ + 1 := by
      apply le_antisymm
      · apply Int.ceil_le.mpr
        push_cast
        exact le_of_lt (Int.lt_floor_add_one _)
      · exact Int.lt_ceil.mpr hlt
    rw [hceil]
    unfold numChunks
    push_cast [Int.toNat_of_nonneg hf]
    ring
  · intro sz hsz
    unfold openaiSizePath
    simp [hsz]

/-- C1 witness: duration 1500 s, chunk max 600 s (the spec scenario of a
25-minute audio at a 10-minute provider maximum); 1500 is not an integer
multiple of 600, and the amended theorem applies. -/
theorem numChunks_amended_witness :
    (0 : ℚ) ≤ 1500 ∧ (0 : ℚ) < 600 ∧ (¬ ∃ k : ℤ, (1500 : ℚ) = (k : ℚ) * 600) ∧
      ((numChunks 1500 600 : ℤ) = ⌈(1500 : ℚ) / 600⌉ ∧
        ∀ sz : ℕ, ¬ sz > 25 * 1024 * 1024 → openaiSizePath sz = OpenAIPath.single) := by
  have hnotmul : ¬ ∃ k : ℤ, (1500 : ℚ) = (k : ℚ) * 600 := by
    rintro ⟨k, hk⟩
    have h5 : (5 : ℚ) = (k : ℚ) * 2 := by linarith
    have h5i : (5 : ℤ) = k * 2 := by exact_mod_cast h5
    omega
  exact ⟨by norm_num, by norm_num, hnotmul,
    numChunks_amended 1500 600 (by norm_num) (by norm_num) hnotmul⟩

/-! ## Chunked transcription loop (`_transcribe_openai_chunked`) -/

/-- Outcome of the chunked transcription: either the joined transcript, or an
error message together with the chunk files (by index) still present in the
temp directory when the error escaped. -/
inductive ChunkedResult where
  | ok (text : String)
  | err (msg : String) (leftover : List ℕ)
deriving DecidableEq

/-- The per-chunk loop of `_transcribe_openai_chunked`.  For each chunk index
`i` in order the code extracts the chunk file (adding it to the temp
directory), calls the provider (oracle `provider i`, failure carrying the
exception message), appends the transcript and removes the chunk file.  A
provider failure escapes the loop with the chunk files present at that
moment.  On normal completion the transcripts are joined by single spaces
(`' '.join(transcriptions)`). -/
def runChunksAux (provider : ℕ → Except String String) :
    List ℕ → List String → List ℕ → ChunkedResult
  | [], acc, _ => ChunkedResult.ok (String.intercalate " " acc.reverse)
  | i :: rest, acc, files =>
      let files1 := files ++ [i]
      match provider i with
      | Except.error e => ChunkedResult.err e files1
      | Except.ok t => runChunksAux provider rest (t :: acc) (files1.erase i)

/-- Message of the `OSError` raised by `os.rmdir` on a non-empty directory. -/
def rmdirErrorMsg : String := "OSError: Directory not empty"

/-- `_transcribe_openai_chunked` over `n` chunks: run the loop, then execute
the `finally` block, which calls `os.rmdir(temp_dir)`.  If chunk files are
left behind, `os.rmdir` raises, and since this happens while the original
exception is propagating, the `OSError` replaces it. -/
def transcribeOpenaiChunked (provider : ℕ → Except String String) (n : ℕ) :
    ChunkedResult :=
  match runChunksAux provider (List.range n) [] [] with
  | ChunkedResult.ok t => ChunkedResult.ok t
  | ChunkedResult.err e files =>
      if files = [] then ChunkedResult.err e files
      else ChunkedResult.err rmdirErrorMsg files

/-- When every provider call succeeds, the loop returns the transcripts of
all chunks, in chunk order, joined by single spaces, having removed every
chunk file. -/
theorem runChunksAux_all_ok (f : ℕ → String) (l : List ℕ) (acc : List String) :
    runChunksAux (fun i => Except.ok (f i)) l acc [] =
      ChunkedResult.ok (String.intercalate " " (acc.reverse ++ l.map f)) := by
  induction l generalizing acc with
  | nil => simp [runChunksAux]
  | cons i rest ih =>
      simp only [runChunksAux, List.nil_append, List.erase_cons_head, List.map_cons]
      rw [ih (f i :: acc)]
      simp

/-- C2.  For every duration `0 ≤ D` and chunk duration `0 < M`, the chunks
produced by `_transcribe_openai_chunked` are non-overlapping contiguous
ranges starting at 0 covering the full duration: chunk `i` starts at `i*M`;
every non-final chunk ends exactly where the next one starts and has length
`M`; the final chunk ends exactly at `D`, its length is the remaining
duration (between 0 and `M`); no chunk extends past `D`; and the per-chunk
transcripts are joined with a single separating space in chunk order. -/
theorem chunkRanges_cover (D M : ℚ) (hD : 0 ≤ D) (hM : 0 < M) :
    chunkStart M 0 = 0 ∧
    (∀ i, i + 1 < numChunks D M → chunkEnd D M i = chunkStart M (i + 1)) ∧
    (∀ i, i + 1 < numChunks D M → chunkEnd D M i - chunkStart M i = M) ∧
    chunkEnd D M (numChunks D M - 1) = D ∧
    0 ≤ D - chunkStart M (numChunks D M - 1) ∧
    D - chunkStart M (numChunks D M - 1) ≤ M ∧
    (∀ i, chunkEnd D M i ≤ D) ∧
    (∀ (f : ℕ → String) (n : ℕ),
      transcribeOpenaiChunked (fun i => Except.ok (f i)) n =
        ChunkedResult.ok (String.intercalate " " ((List.range n).map f))) := by
  have hf0 : (0 : ℤ) ≤ ⌊D / M⌋ := Int.floor_nonneg.mpr (div_nonneg hD hM.le)
  have hcast : ((⌊D / M⌋.toNat : ℕ) : ℚ) = ((⌊D / M⌋ : ℤ) : ℚ) := by
    exact_mod_cast congrArg (fun z : ℤ => (z : ℚ)) (Int.toNat_of_nonneg hf0)
  have hfloor_le : ((⌊D / M⌋ : ℤ) : ℚ) * M ≤ D := by
    have h1 : ((⌊D / M⌋ : ℤ) : ℚ) ≤ D / M := Int.floor_le _
    calc ((⌊D / M⌋ : ℤ) : ℚ) * M ≤ (D / M) * M := by
            exact mul_le_mul_of_nonneg_right h1 hM.le
      _ = D := div_mul_cancel₀ D hM.ne'
  have hlt_next : D < ((⌊D / M⌋ : ℤ) : ℚ) * M + M := by
    have h1 : D / M < ((⌊D / M⌋ : ℤ) : ℚ) + 1 := Int.lt_floor_add_one _
    have h2 : D < (((⌊D / M⌋ : ℤ) : ℚ) + 1) * M := (div_lt_iff₀ hM).mp h1
    linarith [h2]
  refine ⟨by simp [chunkStart], ?_, ?_, ?_, ?_, ?_, ?_, ?_⟩
  · intro i hi
    have hle : (i : ℤ) + 1 ≤ ⌊D / M⌋ := by
      have h1 : i + 1 ≤ ⌊D / M⌋.toNat := by
        unfold numChunks at hi
        omega
      omega
    have h2 : ((i : ℚ) + 1) ≤ D / M := by
      have := Int.le_floor.mp hle
      push_cast at this
      exact this
    have h3 : ((i : ℚ) + 1) * M ≤ D := (le_div_iff₀ hM).mp h2
    unfold chunkEnd chunkStart
    rw [min_eq_left (by rw [show ((i : ℚ)) * M + M = ((i : ℚ) + 1) * M by ring]; exact h3)]
    push_cast
    ring
  · intro i hi
    have hle : (i : ℤ) + 1 ≤ ⌊D / M⌋ := by
      have h1 : i + 1 ≤ ⌊D / M⌋.toNat := by
        unfold numChunks at hi
        omega
      omega
    have h2 : ((i : ℚ) + 1) ≤ D / M := by
      have := Int.le_floor.mp hle
      push_cast at this
      exact this
    have h3 : ((i : ℚ) + 1) * M ≤ D := (le_div_iff₀ hM).mp h2
    unfold chunkEnd chunkStart
    rw [min_eq_left (by rw [show ((i : ℚ)) * M + M = ((i : ℚ) + 1) * M by ring]; exact h3)]
    ring
  · have hn : numChunks D M - 1 = ⌊D / M⌋.toNat := by
      unfold numChunks
      omega
    rw [hn]
    unfold chunkEnd chunkStart
    rw [hcast]
    exact min_eq_right (le_of_lt hlt_next)
  · have hn : numChunks D M - 1 = ⌊D / M⌋.toNat := by
      unfold numChunks
      omega
    rw [hn]
    unfold chunkStart
    rw [hcast]
    linarith [hfloor_le]
  · have hn : numChunks D M - 1 = ⌊D / M⌋.toNat := by
      unfold numChunks
      omega
    rw [hn]
    unfold chunkStart
    rw [hcast]
    linarith [hlt_next]
  · intro i
    unfold chunkEnd
    exact min_le_right _ _
  · intro f n
    unfold transcribeOpenaiChunked
    rw [runChunksAux_all_ok f (List.range n) []]
    simp

/-- C2 witness: the spec scenario, duration 1500 s with 600 s chunks. -/
theorem chunkRanges_cover_witness :
    (0 : ℚ) ≤ 1500 ∧ (0 : ℚ) < 600 ∧
    (chunkStart 600 0 = 0 ∧
    (∀ i, i + 1 < numChunks 1500 600 → chunkEnd 1500 600 i = chunkStart 600 (i + 1)) ∧
    (∀ i, i + 1 < numChunks 1500 600 → chunkEnd 1500 600 i - chunkStart 600 i = 600) ∧
    chunkEnd 1500 600 (numChunks 1500 600 - 1) = 1500 ∧
    0 ≤ 1500 - chunkStart 600 (numChunks 1500 600 - 1) ∧
    1500 - chunkStart 600 (numChunks 1500 600 - 1) ≤ 600 ∧
    (∀ i, chunkEnd 1500 600 i ≤ 1500) ∧
    (∀ (f : ℕ → String) (n : ℕ),
      transcribeOpenaiChunked (fun i => Except.ok (f i)) n =
        ChunkedResult.ok (String.intercalate " " ((List.range n).map f)))) :=
  ⟨by norm_num, by norm_num, chunkRanges_cover 1500 600 (by norm_num) (by norm_num)⟩

/-! ## Job record and state updates (`tasks.py`, `app.py`, `models.py`) -/

/-- The fields of a `Transcription` row that the pipeline mutates:
`status`, `transcription_text`, and whether `completed_at` has been stamped. -/
structure JobRecord where
  status : String
  text : Option String
  completedAt : Bool
deriving DecidableEq

/-- A progress notification handed to `socketio.emit('status_update', ...)`:
status, progress and message. -/
def Emit := String × ℤ × String

/-- `TranscriptionTask.update_progress` (`tasks.py`): fetch the record; if it
exists, set `status` to the given value (nothing else is written - no
progress column exists and no terminal-state or monotonicity check is made)
and emit one event carrying the given status, progress and message verbatim.
If the record is absent, nothing is written and nothing is emitted. -/
def updateProgress (r : Option JobRecord) (status : String) (progress : ℤ)
    (msg : String) : Option JobRecord × List Emit :=
  match r with
  | none => (none, [])
  | some rec => (some { rec with status := status }, [(status, progress, msg)])

/-- The failure handler of `process_transcription` (`tasks.py`, the `except`
block): set `status = 'failed'`, store the error text prefixed with
`"Error: "`, then call `update_progress(id, 'failed', 0, ...)`.  Note that
`completed_at` is not touched on this path. -/
def finishFailure (r : Option JobRecord) (msg : String) :
    Option JobRecord × List Emit :=
  let r1 : Option JobRecord :=
    match r with
    | none => none
    | some rec => some { rec with status := "failed",
                                  text := some ("Error: " ++ msg) }
  updateProgress r1 "failed" 0 ("Transcription failed: " ++ msg)

/-- The failure handler of the in-app background path
(`app.py`, `process_transcription`): set `status = 'failed'`, store the
prefixed error text, and stamp `completed_at`. -/
def appFinishFailure (rec : JobRecord) (msg : String) : JobRecord :=
  { rec with status := "failed", text := some ("Error: " ++ msg),
             completedAt := true }

/-- The methods defined on `TranscriptionService`
(`transcription_service.py`). -/
def transcriptionServiceMethods : List String :=
  ["extract_audio", "transcribe", "_transcribe_gemini", "_transcribe_openai",
   "_enhance_transcript_with_gpt", "_transcribe_openai_chunked"]

/-- Python attribute lookup on a `TranscriptionService` instance: succeeds
exactly for the defined methods; any other name raises `AttributeError`. -/
def hasMethod (name : String) : Bool :=
  transcriptionServiceMethods.contains name

/-- The message of the `AttributeError` raised when `tasks.py` accesses
`service.transcribe_with_progress`. -/
def attrErrorMsg : String :=
  "TranscriptionService object has no attribute transcribe_with_progress"

/-- Oracles for the effectful steps of the Celery task: whether decrypting
the API key succeeds, whether audio extraction succeeds, the provider tag,
and the error messages / result the respective steps would produce. -/
structure TaskEnv where
  decryptOk : Bool
  decryptErr : String
  extractOk : Bool
  extractErr : String
  provider : String
  sizeMsg : String
  transcribeResult : Except String String

/-- Result of one run of the Celery task: the status in the returned dict,
the final database record, and the emitted events in order. -/
structure TaskResult where
  retStatus : String
  record : Option JobRecord
  emits : List Emit

/-- `process_transcription` (`tasks.py`), step by step: progress 10, decrypt
the key, progress 20, extract audio, progress 30 (with the size message),
progress 40 (provider-specific message), then call
`service.transcribe_with_progress` - an attribute lookup that raises
`AttributeError` unless the method exists on `TranscriptionService`.  On
success: progress 95, write text / `completed` / `completed_at`, emit
`completed`/100, return `completed`.  On any exception: the `except` block
(`finishFailure`) runs and the task returns `failed`. -/
def processTranscription (env : TaskEnv) (r0 : Option JobRecord) : TaskResult :=
  let s1 := updateProgress r0 "processing" 10 "Starting transcription..."
  if env.decryptOk then
    let s2 := updateProgress s1.1 "processing" 20 "Extracting audio from video..."
    if env.extractOk then
      let s3 := updateProgress s2.1 "processing" 30 env.sizeMsg
      let msg40 := if env.provider = "gemini" then "Uploading to Gemini API..."
                   else "Starting Whisper transcription..."
      let s4 := updateProgress s3.1 "processing" 40 msg40
      if hasMethod "transcribe_with_progress" then
        match env.transcribeResult with
        | Except.ok text =>
            let s5 := updateProgress s4.1 "processing" 95 "Saving transcription..."
            let r6 : Option JobRecord :=
              match s5.1 with
              | none => none
              | some rec => some { rec with text := some text,
                                            status := "completed",
                                            completedAt := true }
            let s7 := updateProgress r6 "completed" 100 "Transcription completed!"
            ⟨"completed", s7.1, s1.2 ++ s2.2 ++ s3.2 ++ s4.2 ++ s5.2 ++ s7.2⟩
        | Except.error e =>
            let s5 := finishFailure s4.1 e
            ⟨"failed", s5.1, s1.2 ++ s2.2 ++ s3.2 ++ s4.2 ++ s5.2⟩
      else
        let s5 := finishFailure s4.1 attrErrorMsg
        ⟨"failed", s5.1, s1.2 ++ s2.2 ++ s3.2 ++ s4.2 ++ s5.2⟩
    else
      let s3 := finishFailure s2.1 env.extractErr
      ⟨"failed", s3.1, s1.2 ++ s2.2 ++ s3.2⟩
  else
    let s2 := finishFailure s1.1 env.decryptErr
    ⟨"failed", s2.1, s1.2 ++ s2.2⟩

/-- C3.  `TranscriptionService` defines no `transcribe_with_progress`
method, so every task run that gets through credential decryption and audio
extraction raises `AttributeError` at the transcription step: the returned
dict has status `failed`, and the record ends in status `failed` with the
prefixed `AttributeError` text stored - no job completes via this path. -/
theorem task_always_fails (env : TaskEnv) (r : JobRecord)
    (h1 : env.decryptOk = true) (h2 : env.extractOk = true) :
    hasMethod "transcribe_with_progress" = false ∧
    (processTranscription env (some r)).retStatus = "failed" ∧
    (processTranscription env (some r)).record =
      some { r with status := "failed",
                    text := some ("Error: " ++ attrErrorMsg) } := by
  have hm : hasMethod "transcribe_with_progress" = false := by decide
  refine ⟨hm, ?_, ?_⟩ <;>
    simp [processTranscription, h1, h2, hm, updateProgress, finishFailure]

/-- C3 witness: a concrete environment whose decryption and extraction both
succeed. -/
theorem task_always_fails_witness :
    (TaskEnv.mk true "d" true "x" "gemini" "sz" (Except.ok "t")).decryptOk = true ∧
    (TaskEnv.mk true "d" true "x" "gemini" "sz" (Except.ok "t")).extractOk = true ∧
    (hasMethod "transcribe_with_progress" = false ∧
     (processTranscription (TaskEnv.mk true "d" true "x" "gemini" "sz" (Except.ok "t"))
        (some (JobRecord.mk "processing" none false))).retStatus = "failed" ∧
     (processTranscription (TaskEnv.mk true "d" true "x" "gemini" "sz" (Except.ok "t"))
        (some (JobRecord.mk "processing" none false))).record =
       some { JobRecord.mk "processing" none false with
                status := "failed",
                text := some ("Error: " ++ attrErrorMsg) }) :=
  ⟨rfl, rfl,
    task_always_fails (TaskEnv.mk true "d" true "x" "gemini" "sz" (Except.ok "t"))
      (JobRecord.mk "processing" none false) rfl rfl⟩

/-- C5.  Counterexample: `update_progress` writes the given status
unconditionally, so calling it with a non-terminal status on a job already
in the terminal state `completed` moves it back to `processing` - a
transition out of a terminal state. -/
theorem updateProgress_leaves_terminal_counterexample :
    (updateProgress (some (JobRecord.mk "completed" (some "transcript") true))
        "processing" 50 "restart").1 =
      some (JobRecord.mk "processing" (some "transcript") true) := rfl

/-- C5 (amended).  `update_progress` overwrites the stored status with its
argument unconditionally - there is no terminal-state guard, so an update
carrying a non-terminal status moves a terminal job out of its terminal
state.  Repeating the task's failure finish with the same error is a no-op
on the second call (it rewrites the same values), and within a single task
run the success and failure finishes are mutually exclusive branches, but
nothing prevents a later operation from leaving a terminal state. -/
theorem updateProgress_no_guard_amended (rec : JobRecord) (c : String)
    (p : ℤ) (m msg : String) :
    (updateProgress (some rec) c p m).1 = some { rec with status := c } ∧
    (finishFailure (finishFailure (some rec) msg).1 msg).1 =
      (finishFailure (some rec) msg).1 := by
  constructor
  · rfl
  · simp [finishFailure, updateProgress]

/-- C6.  Counterexample: `update_progress` stores no progress value and
performs no clamping - it emits exactly the progress it is given, so two
successive calls on a `processing` job can emit a strictly decreasing
progress sequence (50 then 30). -/
theorem progress_not_clamped_counterexample :
    (updateProgress (some (JobRecord.mk "processing" none false))
        "processing" 50 "a").2 ++
      (updateProgress
        ((updateProgress (some (JobRecord.mk "processing" none false))
            "processing" 50 "a").1) "processing" 30 "b").2 =
      [("processing", 50, "a"), ("processing", 30, "b")] := rfl

/-- Progress values of the events emitted with status `processing`. -/
def processingProgress (l : List Emit) : List ℤ :=
  l.filterMap (fun e => if e.1 = "processing" then some e.2.1 else none)

/-- C6 (amended).  `update_progress` neither stores nor clamps progress (the
record has no progress column); monotonicity holds only because every call
site in `process_transcription` passes a non-decreasing hard-coded sequence:
on every execution path of the task, the progress values emitted while in
the `processing` state are non-decreasing. -/
theorem task_progress_monotone_amended (env : TaskEnv) (r0 : Option JobRecord) :
    List.Chain' (fun a b => a ≤ b)
      (processingProgress (processTranscription env r0).emits) := by
  obtain ⟨d, de, x, xe, prov, sz, tr⟩ := env
  have hm : hasMethod "transcribe_with_progress" = false := by decide
  cases r0 with
  | none =>
      cases d <;> cases x <;>
        simp [processTranscription, hm, updateProgress, finishFailure,
              processingProgress]
  | some rec =>
      cases d <;> cases x <;>
        simp [processTranscription, hm, updateProgress, finishFailure,
              processingProgress]

/-- C7.  Counterexample: the failure finish of the Celery task
(`tasks.py`) never writes `completed_at` - a job failing there keeps its
completion timestamp unstamped, against the claim that the failure-finishing
operation stamps it. -/
theorem finishFailure_no_timestamp_counterexample :
    (finishFailure (some (JobRecord.mk "processing" none false)) "boom").1 =
      some (JobRecord.mk "failed" (some "Error: boom") false) := rfl

/-- C7 (amended).  On failure, the Celery task path sets the status to
`failed` and stores the error text prefixed with `"Error: "` (distinguishing
it from a transcript), but does not stamp `completed_at` (and stores no
progress value at all - the emitted failure event carries progress 0).  Only
the in-app background path of `app.py` additionally stamps `completed_at` on
failure. -/
theorem finishFailure_amended (rec : JobRecord) (msg : String) :
    (finishFailure (some rec) msg).1 =
      some { rec with status := "failed", text := some ("Error: " ++ msg) } ∧
    (finishFailure (some rec) msg).2 =
      [("failed", 0, "Transcription failed: " ++ msg)] ∧
    appFinishFailure rec msg =
      { rec with status := "failed", text := some ("Error: " ++ msg),
                 completedAt := true } := by
  refine ⟨?_, rfl, rfl⟩
  simp [finishFailure, updateProgress]

/-! ## Failure mid-chunk and cleanup (`_transcribe_openai_chunked`, `tasks.py`) -/

/-- Whether the extracted audio artifact and the uploaded source video still
exist on disk. -/
structure TaskFiles where
  audio : Bool
  video : Bool
deriving DecidableEq

/-- The `finally` block of `process_transcription` (`tasks.py`): removes the
audio artifact and the uploaded video whenever they exist, on every exit
path. -/
def taskCleanup (_f : TaskFiles) : TaskFiles := ⟨false, false⟩

/-- If every chunk before `k` transcribes successfully and the provider call
for chunk `k` raises, the loop escapes with exactly the chunk file of `k`
left in the temp directory (earlier chunk files were each removed right
after their transcription). -/
theorem runChunksAux_fail_at (provider : ℕ → Except String String)
    (k : ℕ) (e : String) (hfail : provider k = Except.error e) :
    ∀ (l1 l2 : List ℕ) (acc : List String),
      (∀ j ∈ l1, ∃ t, provider j = Except.ok t) →
      runChunksAux provider (l1 ++ k :: l2) acc [] =
        ChunkedResult.err e [k] := by
  intro l1
  induction l1 with
  | nil =>
      intro l2 acc _
      simp [runChunksAux, hfail]
  | cons j l1 ih =>
      intro l2 acc hok
      obtain ⟨t, ht⟩ := hok j (List.mem_cons_self j l1)
      have hrest : ∀ j1 ∈ l1, ∃ t1, provider j1 = Except.ok t1 :=
        fun j1 hj1 => hok j1 (List.mem_cons_of_mem j hj1)
      simp only [List.cons_append, runChunksAux, List.nil_append,
        List.erase_cons_head, ht]
      exact ih l2 (t :: acc) hrest

/-- `List.range n` splits at any `k < n`. -/
theorem range_split_at (k n : ℕ) (hk : k < n) :
    ∃ l2, List.range n = List.range k ++ k :: l2 := by
  induction n with
  | zero => omega
  | succ n ih =>
      rcases Nat.lt_succ_iff_lt_or_eq.mp hk with h | h
      · obtain ⟨l2, hl2⟩ := ih h
        exact ⟨l2 ++ [n], by rw [List.range_succ, hl2]; simp⟩
      · subst h
        exact ⟨[], by rw [List.range_succ]⟩

/-- C4.  Counterexample: with 3 chunks and the provider raising on chunk 2
(index 1), the chunk file of the failing chunk is left behind (`[1]` is not
empty, so not every chunk file is removed), and the error that escapes is
the `OSError` of the temp-directory `rmdir`, not a text referencing the
provider failure `"boom"`. -/
theorem chunk_failure_cleanup_counterexample :
    transcribeOpenaiChunked
        (fun i => if i = 1 then Except.error "boom" else Except.ok "text") 3 =
      ChunkedResult.err rmdirErrorMsg [1] ∧
    rmdirErrorMsg ≠ "boom" ∧ ([1] : List ℕ) ≠ [] := by
  refine ⟨rfl, by decide, by decide⟩

/-- C4 (amended).  If the provider call raises on chunk `k` (0-based) of `n`
after chunks `0..k-1` succeeded, then: the chunk files of the completed
chunks were each removed immediately, but the failing chunk's file remains,
so the `finally` block's `os.rmdir` on the non-empty temp directory raises an
`OSError` that replaces the provider error - the escaping error text
references the directory cleanup, not the provider failure.  The task's
`except` block then marks the job `failed` and stores only the prefixed
error text (no partial transcript is persisted), and the task's `finally`
block removes the audio artifact and the uploaded source file. -/
theorem chunk_failure_cleanup_amended (provider : ℕ → Except String String)
    (n k : ℕ) (e : String) (hk : k < n)
    (hfail : provider k = Except.error e)
    (hpre : ∀ j, j < k → ∃ t, provider j = Except.ok t) :
    transcribeOpenaiChunked provider n = ChunkedResult.err rmdirErrorMsg [k] ∧
    (∀ rec msg, (finishFailure (some rec) msg).1 =
      some { rec with status := "failed", text := some ("Error: " ++ msg) }) ∧
    (∀ f, taskCleanup f = ⟨false, false⟩) := by
  refine ⟨?_, ?_, fun _ => rfl⟩
  · obtain ⟨l2, hl2⟩ := range_split_at k n hk
    have hok : ∀ j ∈ List.range k, ∃ t, provider j = Except.ok t :=
      fun j hj => hpre j (List.mem_range.mp hj)
    unfold transcribeOpenaiChunked
    rw [hl2, runChunksAux_fail_at provider k e hfail (List.range k) l2 [] hok]
    simp
  · intro rec msg
    simp [finishFailure, updateProgress]

/-- C4 witness: 3 chunks, provider raising on the middle one. -/
theorem chunk_failure_cleanup_witness :
    (1 < 3 ∧
      (fun i => if i = 1 then Except.error "boom" else Except.ok "text") 1 =
        (Except.error "boom" : Except String String) ∧
      (∀ j : ℕ, j < 1 → ∃ t,
        (fun i => if i = 1 then Except.error "boom" else Except.ok "text") j =
          (Except.ok t : Except String String))) ∧
    (transcribeOpenaiChunked
        (fun i => if i = 1 then Except.error "boom" else Except.ok "text") 3 =
      ChunkedResult.err rmdirErrorMsg [1] ∧
    (∀ rec msg, (finishFailure (some rec) msg).1 =
      some { rec with status := "failed", text := some ("Error: " ++ msg) }) ∧
    (∀ f, taskCleanup f = ⟨false, false⟩)) := by
  have hpre : ∀ j : ℕ, j < 1 → ∃ t,
      (fun i => if i = 1 then Except.error "boom" else Except.ok "text") j =
        (Except.ok t : Except String String) := by
    intro j hj
    have hj0 : j = 0 := Nat.lt_one_iff.mp hj
    subst hj0
    exact ⟨"text", rfl⟩
  exact ⟨⟨by norm_num, rfl, hpre⟩,
    chunk_failure_cleanup_amended
      (fun i => if i = 1 then Except.error "boom" else Except.ok "text")
      3 1 "boom" (by norm_num) rfl hpre⟩

/-! ## Cleanup pass, record creation, encryption -/

/-- `_enhance_transcript_with_gpt` (`transcription_service.py`): call the
chat completion (oracle `gpt`); if it raises, the exception is caught and the
raw transcript is returned unchanged. -/
def enhanceTranscript (gpt : String → Option String) (raw : String) : String :=
  match gpt raw with
  | some enhanced => enhanced
  | none => raw

/-- `_transcribe_openai` after the raw transcription step (oracle `whisper`;
`none` means the whisper call raised, which the surrounding `except` re-raises
as a failure): on raw success the result is always passed through the
enhancement pass. -/
def transcribeOpenai (whisper : Option String)
    (gpt : String → Option String) : Option String :=
  match whisper with
  | none => none
  | some raw => some (enhanceTranscript gpt raw)

/-- The in-app background path (`app.py`, `process_transcription`): on a
transcription result, mark the record `completed` with the text and stamp
`completed_at`; on an exception, mark it `failed` with the prefixed error
text and stamp `completed_at`. -/
def appProcess (rec : JobRecord) (result : Except String String) : JobRecord :=
  match result with
  | Except.ok t =>
      { rec with status := "completed", text := some t, completedAt := true }
  | Except.error e =>
      { rec with status := "failed", text := some ("Error: " ++ e),
                 completedAt := true }

/-- C8.  If the GPT cleanup pass fails after a successful raw transcription,
the raw (non-cleaned) transcript is returned by the provider variant, and a
job finishing with it still completes successfully with that raw text as its
stored result. -/
theorem cleanup_failure_returns_raw (gpt : String → Option String)
    (raw : String) (rec : JobRecord) (h : gpt raw = none) :
    enhanceTranscript gpt raw = raw ∧
    transcribeOpenai (some raw) gpt = some raw ∧
    (appProcess rec (Except.ok raw)).status = "completed" ∧
    (appProcess rec (Except.ok raw)).text = some raw := by
  refine ⟨?_, ?_, rfl, rfl⟩
  · simp [enhanceTranscript, h]
  · simp [transcribeOpenai, enhanceTranscript, h]

/-- C8 witness: a cleanup oracle that always fails, on the raw transcript
`"raw words"`. -/
theorem cleanup_failure_returns_raw_witness :
    ((fun _ : String => (none : Option String)) "raw words" = none) ∧
    (enhanceTranscript (fun _ => none) "raw words" = "raw words" ∧
     transcribeOpenai (some "raw words") (fun _ => none) = some "raw words" ∧
     (appProcess (JobRecord.mk "processing" none false)
        (Except.ok "raw words")).status = "completed" ∧
     (appProcess (JobRecord.mk "processing" none false)
        (Except.ok "raw words")).text = some "raw words") :=
  ⟨rfl, cleanup_failure_returns_raw (fun _ => none) "raw words"
    (JobRecord.mk "processing" none false) rfl⟩

/-- The record created by the `/api/transcribe` route (`app.py`):
`Transcription(..., status='processing')` - the status is `processing` from
the moment the record is committed, before the background worker starts. -/
def enqueueTranscription : JobRecord :=
  { status := "processing", text := none, completedAt := false }

/-- Default of the `status` column when none is passed
(`models.py`: `db.Column(..., default='pending')`). -/
def transcriptionDefaultStatus : String := "pending"

/-- C9.  Counterexample: the record created at enqueue time has status
`processing`, not `queued`. -/
theorem enqueue_status_counterexample :
    enqueueTranscription.status ≠ "queued" := by decide

/-- C9 (amended).  The job record is created at enqueue time - before any
worker picks it up - but in state `processing` (the column default, used when
no status is passed, is `pending`); the state `queued` is never used. -/
theorem enqueue_status_amended :
    enqueueTranscription.status = "processing" ∧
    transcriptionDefaultStatus = "pending" := ⟨rfl, rfl⟩

/-- An abstract symmetric cipher standing for the `cryptography` package's
`Fernet` object used by `EncryptionService`: the library is outside this
repository, so its encryption and decryption are opaque functions, and its
documented round-trip behaviour enters only as an explicit hypothesis. -/
structure Cipher where
  enc : String → String
  dec : String → String

/-- `EncryptionService.encrypt` (`encryption_service.py`): a falsy (empty)
input is returned unchanged; otherwise the cipher encrypts. -/
def encrypt (c : Cipher) (data : String) : String :=
  if data = "" then data else c.enc data

/-- `EncryptionService.decrypt` (`encryption_service.py`): a falsy (empty)
input is returned unchanged; otherwise the cipher decrypts. -/
def decrypt (c : Cipher) (encryptedData : String) : String :=
  if encryptedData = "" then encryptedData else c.dec encryptedData

/-- C10.  For any underlying cipher whose decryption inverts its encryption
and whose ciphertexts for non-empty plaintexts are non-empty (both true of
Fernet tokens), `EncryptionService` satisfies `decrypt (encrypt s) = s` for
every string `s`, and both `encrypt` and `decrypt` pass the empty (falsy)
input through unchanged instead of raising. -/
theorem encrypt_decrypt_roundtrip (c : Cipher)
    (hinv : ∀ x, c.dec (c.enc x) = x)
    (hne : ∀ x, x ≠ "" → c.enc x ≠ "") :
    (∀ s, decrypt c (encrypt c s) = s) ∧
    encrypt c "" = "" ∧ decrypt c "" = "" := by
  refine ⟨?_, rfl, rfl⟩
  intro s
  by_cases hs : s = ""
  · simp [encrypt, decrypt, hs]
  · simp [encrypt, decrypt, hs, hne s hs, hinv]

/-- C10 witness: the identity cipher satisfies both hypotheses. -/
theorem encrypt_decrypt_roundtrip_witness :
    (∀ x, (Cipher.mk id id).dec ((Cipher.mk id id).enc x) = x) ∧
    (∀ x : String, x ≠ "" → (Cipher.mk id id).enc x ≠ "") ∧
    ((∀ s, decrypt (Cipher.mk id id) (encrypt (Cipher.mk id id) s) = s) ∧
     encrypt (Cipher.mk id id) "" = "" ∧ decrypt (Cipher.mk id id) "" = "") :=
  ⟨fun _ => rfl, fun _ h => h,
    encrypt_decrypt_roundtrip (Cipher.mk id id) (fun _ => rfl) (fun _ h => h)⟩
